import Mathlib

/-!
Verification of the state/animation core of the "UITS Pillar Builder" clicker game
(`Project/main.cpp`) and of the Bresenham line rasterizer (`Lab_report_06/src/main.cpp`).

The C++ `float` arithmetic of the game logic is embedded as exact rational
arithmetic over `ℚ`; every literal (`0.2f`, `0.55f`, `0.5f`, ...) is carried over
as the exact rational it denotes.  The trigonometric oscillators (`std::sin`,
`std::cos`) only feed the visual shake offsets and the flash intensity; they are
abstracted as oracle parameters `sinO cosO : ℚ → ℚ` so that every definition
stays executable, and no theorem below depends on their values.
-/

/-! ## Constants of the game (`Project/main.cpp`, lines 51-66) -/

def OPACITY_FADE_RATE : ℚ := 0.2
def OPACITY_GAIN_RATE : ℚ := 0.25
def OPACITY_THRESHOLD : ℚ := 0.55
def GAME_DURATION : ℚ := 10.0
def BOOM_DURATION : ℚ := 2.5

/-! ## Game state: the mutable globals of `Project/main.cpp` (lines 50-70) -/

/-- All mutable global game state of `Project/main.cpp`: the 4-element
`pillarOpacity` array, the game flags, the boom-animation clock, the
background color channels and the 29 `componentDisappeared` flags. -/
@[ext]
structure GameState where
  pillarOpacity : Fin 4 → ℚ
  gameTimer : ℚ
  gameActive : Bool
  gameWon : Bool
  gameLost : Bool
  gameStatus : String
  boomStarted : Bool
  boomTimer : ℚ
  bgRed : ℚ
  bgGreen : ℚ
  bgBlue : ℚ
  componentDisappeared : Fin 29 → Bool

/-- The post-construction values of the globals (initializers at lines 50-70,
plus `componentDisappeared.resize(29, false)` at line 211). -/
def initialState : GameState where
  pillarOpacity := fun _ => 1
  gameTimer := 0
  gameActive := true
  gameWon := false
  gameLost := false
  gameStatus := "Keep Clicking!"
  boomStarted := false
  boomTimer := 0
  bgRed := 1
  bgGreen := 1
  bgBlue := 1
  componentDisappeared := fun _ => false

/-- The `static bool` debounce locals of `processInput` (lines 366, 384). -/
structure InputState where
  spacePressed : Bool
  rPressed : Bool

def initialInputState : InputState := ⟨false, false⟩

/-- Per-tick key readings supplied by GLFW. -/
structure Input where
  spaceDown : Bool
  rDown : Bool

/-! ## Opacity simulation -/

/-- The decay loop of `updateGameLogic` (lines 445-449):
`pillarOpacity[i] -= OPACITY_FADE_RATE * deltaTime; pillarOpacity[i] = max(pillarOpacity[i], 0.0f)`. -/
def decayOpacity (dt : ℚ) (o : Fin 4 → ℚ) : Fin 4 → ℚ :=
  fun i => max (o i - OPACITY_FADE_RATE * dt) 0

/-- The boost loop of `processInput` (lines 371-374):
`pillarOpacity[i] = min(pillarOpacity[i] + OPACITY_GAIN_RATE, 1.0f)`. -/
def boostOpacity (o : Fin 4 → ℚ) : Fin 4 → ℚ :=
  fun i => min (o i + OPACITY_GAIN_RATE) 1

/-! ## resetGame (lines 506-535): sets every global back to its initial value -/

def resetGame (_s : GameState) : GameState where
  pillarOpacity := fun _ => 1
  gameTimer := 0
  gameActive := true
  gameWon := false
  gameLost := false
  gameStatus := "Keep Clicking!"
  boomStarted := false
  boomTimer := 0
  bgRed := 1
  bgGreen := 1
  bgBlue := 1
  componentDisappeared := fun _ => false

/-! ## processInput (lines 360-397) -/

/-- The SPACE block of `processInput` (lines 366-381): boost on the rising edge
of the key, only while the game is active and the boom has not started. -/
def processSpace (spaceDown : Bool) (ist : InputState) (s : GameState) :
    InputState × GameState :=
  if spaceDown = true then
    if ist.spacePressed = false ∧ s.gameActive = true ∧ s.boomStarted = false then
      ({ ist with spacePressed := true },
       { s with pillarOpacity := boostOpacity s.pillarOpacity })
    else (ist, s)
  else ({ ist with spacePressed := false }, s)

/-- The R block of `processInput` (lines 384-396): edge-triggered reset. -/
def processR (rDown : Bool) (ist : InputState) (s : GameState) :
    InputState × GameState :=
  if rDown = true then
    if ist.rPressed = false then ({ ist with rPressed := true }, resetGame s)
    else (ist, s)
  else ({ ist with rPressed := false }, s)

def processInput (inp : Input) (ist : InputState) (s : GameState) :
    InputState × GameState :=
  processR inp.rDown (processSpace inp.spaceDown ist s).1
    (processSpace inp.spaceDown ist s).2

/-! ## updateGameLogic (lines 439-485) -/

def updateGameLogic (dt : ℚ) (s : GameState) : GameState :=
  if s.gameActive = false ∨ s.boomStarted = true then s
  else if decayOpacity dt s.pillarOpacity 0 < OPACITY_THRESHOLD ∨
          decayOpacity dt s.pillarOpacity 1 < OPACITY_THRESHOLD ∨
          decayOpacity dt s.pillarOpacity 2 < OPACITY_THRESHOLD ∨
          decayOpacity dt s.pillarOpacity 3 < OPACITY_THRESHOLD then
    { s with pillarOpacity := decayOpacity dt s.pillarOpacity,
             gameActive := false, gameLost := true,
             gameStatus := "LOST! Pillars collapsed!",
             boomStarted := true, boomTimer := 0 }
  else if GAME_DURATION ≤ s.gameTimer + dt then
    { s with pillarOpacity := decayOpacity dt s.pillarOpacity,
             gameTimer := s.gameTimer + dt, gameActive := false,
             gameWon := true, gameStatus := "WON! Campus Saved!" }
  else
    { s with pillarOpacity := decayOpacity dt s.pillarOpacity,
             gameTimer := s.gameTimer + dt }

/-! ## updateBackgroundColor (lines 403-433) -/

def updateBackgroundColor (s : GameState) : GameState :=
  let avgOpacity := (s.pillarOpacity 0 + s.pillarOpacity 1 +
                     s.pillarOpacity 2 + s.pillarOpacity 3) / 4
  if s.gameLost = false ∧ s.gameActive = true then
    let opacityRatio :=
      max ((avgOpacity - OPACITY_THRESHOLD) / (1 - OPACITY_THRESHOLD)) 0
    { s with bgRed := 1, bgGreen := opacityRatio, bgBlue := opacityRatio }
  else if s.gameLost = true then
    { s with bgRed := 1, bgGreen := 0.2, bgBlue := 0.2 }
  else if s.gameWon = true then
    { s with bgRed := 0.2, bgGreen := 1, bgBlue := 0.2 }
  else s

/-! ## updateBoomAnimation (lines 491-500) -/

def updateBoomAnimation (dt : ℚ) (s : GameState) : GameState :=
  let t := s.boomTimer + dt
  if BOOM_DURATION ≤ t then { s with boomStarted := false, boomTimer := 0 }
  else { s with boomTimer := t }

/-! ## Building components (lines 76-121, 541-589) -/

structure BuildingComponent where
  x : ℚ
  y : ℚ
  width : ℚ
  height : ℚ
  color : ℚ × ℚ × ℚ
  disappearTime : ℚ

/-- The literal 29-piece layout built by `createBuildingComponents`. -/
def componentsList : List BuildingComponent :=
  [ ⟨-3.0, 0.5, 2.0, 5.0, (0.8, 0.4, 0.2), 0.35⟩
  , ⟨0.0, 0.2, 4.4, 2.0, (0.8, 0.4, 0.2), 0.4⟩
  , ⟨3.0, 0.1, 2.0, 3.5, (0.8, 0.4, 0.2), 0.35⟩
  , ⟨-3.0, 2.8, 2.2, 0.5, (0.6, 0.3, 0.1), 0.32⟩
  , ⟨3.0, 1.95, 2.2, 0.5, (0.6, 0.3, 0.1), 0.32⟩
  , ⟨-1.2, -1.3, 0.4, 1.2, (0.5, 0.25, 0.1), 0.86⟩
  , ⟨1.2, -1.3, 0.4, 1.2, (0.5, 0.25, 0.1), 0.87⟩
  , ⟨-0.6, -1.35, 0.25, 1.1, (0.4, 0.2, 0.08), 0.88⟩
  , ⟨0.6, -1.35, 0.25, 1.1, (0.4, 0.2, 0.08), 0.89⟩
  , ⟨-3.4, 1.5, 0.35, 0.35, (0.2, 0.5, 0.8), 0.5⟩
  , ⟨-3.0, 1.5, 0.35, 0.35, (0.2, 0.5, 0.8), 0.52⟩
  , ⟨-3.4, 0.5, 0.35, 0.35, (0.2, 0.5, 0.8), 0.54⟩
  , ⟨-3.0, 0.5, 0.35, 0.35, (0.2, 0.5, 0.8), 0.56⟩
  , ⟨3.0, 1.0, 0.35, 0.35, (0.2, 0.5, 0.8), 0.5⟩
  , ⟨3.4, 1.0, 0.35, 0.35, (0.2, 0.5, 0.8), 0.52⟩
  , ⟨3.0, 0.0, 0.35, 0.35, (0.2, 0.5, 0.8), 0.54⟩
  , ⟨3.4, 0.0, 0.35, 0.35, (0.2, 0.5, 0.8), 0.56⟩
  , ⟨-1.2, 0.7, 0.35, 0.35, (0.2, 0.5, 0.8), 0.6⟩
  , ⟨0.0, 0.7, 0.35, 0.35, (0.2, 0.5, 0.8), 0.62⟩
  , ⟨1.2, 0.7, 0.35, 0.35, (0.2, 0.5, 0.8), 0.64⟩
  , ⟨-1.2, -0.1, 0.35, 0.35, (0.2, 0.5, 0.8), 0.65⟩
  , ⟨0.0, -0.1, 0.35, 0.35, (0.2, 0.5, 0.8), 0.67⟩
  , ⟨1.2, -0.1, 0.35, 0.35, (0.2, 0.5, 0.8), 0.69⟩
  , ⟨0.0, -1.95, 3.2, 0.9, (1.0, 1.0, 1.0), 0.8⟩
  , ⟨-1.3, -1.95, 0.15, 0.9, (1.0, 1.0, 1.0), 0.81⟩
  , ⟨-0.6, -1.95, 0.15, 0.9, (1.0, 1.0, 1.0), 0.82⟩
  , ⟨0.0, -1.95, 0.15, 0.9, (1.0, 1.0, 1.0), 0.83⟩
  , ⟨0.6, -1.95, 0.15, 0.9, (1.0, 1.0, 1.0), 0.84⟩
  , ⟨1.3, -1.95, 0.15, 0.9, (1.0, 1.0, 1.0), 0.85⟩ ]

theorem componentsList_length : componentsList.length = 29 := rfl

def components (i : Fin 29) : BuildingComponent :=
  componentsList.get (Fin.cast componentsList_length.symm i)

/-! ## Per-piece rendering during the draw loop (lines 256-320) -/

/-- What the draw loop submits for one piece: nothing, the resting transform
(translate to center, scale by size), or the collapse transform (translate,
shake offset, rotation, uniform scale, then size scale, in that order). -/
inductive PieceRender
  | hidden
  | resting (pos : ℚ × ℚ) (size : ℚ × ℚ)
  | collapsing (pos : ℚ × ℚ) (shake : ℚ × ℚ) (angle : ℚ) (uscale : ℚ) (size : ℚ × ℚ)
  deriving DecidableEq

/-- One iteration of the draw loop (lines 256-320) for a single piece:
returns what is rendered and the updated `componentDisappeared` flag.
`sinO`/`cosO` stand for `std::sin`/`std::cos`. -/
def drawPiece (sinO cosO : ℚ → ℚ) (s : GameState) (c : BuildingComponent)
    (removed : Bool) : PieceRender × Bool :=
  let timeSinceDisappear := s.boomTimer - c.disappearTime
  if 0 < timeSinceDisappear ∧ s.boomStarted = true then
    let disappearProgress := min (timeSinceDisappear / 0.5) 1
    if 1 ≤ disappearProgress then (.hidden, true)
    else
      let shakeAmount := (1 - disappearProgress) * 0.1
      let shakeX := sinO (s.boomTimer * 20) * shakeAmount
      let shakeY := cosO (s.boomTimer * 25) * shakeAmount
      let rotationAngle := disappearProgress * 3.14159 * 2
      let scaleAmount := 1 - disappearProgress * 0.8
      (.collapsing (c.x, c.y) (shakeX, shakeY) rotationAngle scaleAmount
         (c.width, c.height), removed)
  else if removed = false then
    (.resting (c.x, c.y) (c.width, c.height), removed)
  else (.hidden, removed)

/-- The `componentDisappeared` flag update performed by the draw loop for one
piece; identical to `(drawPiece ...).2` and independent of the oscillators. -/
def pieceRemovedAfter (s : GameState) (c : BuildingComponent) (removed : Bool) : Bool :=
  let timeSinceDisappear := s.boomTimer - c.disappearTime
  if 0 < timeSinceDisappear ∧ s.boomStarted = true then
    let disappearProgress := min (timeSinceDisappear / 0.5) 1
    if 1 ≤ disappearProgress then true else removed
  else removed

theorem drawPiece_snd (sinO cosO : ℚ → ℚ) (s : GameState) (c : BuildingComponent)
    (removed : Bool) : (drawPiece sinO cosO s c removed).2 = pieceRemovedAfter s c removed := by
  simp only [drawPiece, pieceRemovedAfter]
  split_ifs <;> rfl

/-- The flag updates of one pass of the draw loop over all 29 pieces. -/
def drawAll (s : GameState) : GameState :=
  { s with componentDisappeared :=
      fun i => pieceRemovedAfter s (components i) (s.componentDisappeared i) }

/-! ## Background flash during the boom (lines 242-253) -/

def lostColor : ℚ × ℚ × ℚ := (1, 0.2, 0.2)

/-- `flashIntensity = sin(boomTimer * 6.28f * 5.0f) * 0.5f + 0.5f` (line 245). -/
def flashIntensity (sinO : ℚ → ℚ) (boomTimer : ℚ) : ℚ :=
  sinO (boomTimer * 6.28 * 5) * 0.5 + 0.5

/-- The flash clear color as a function of the intensity (lines 246-251). -/
def flashColor (fi : ℚ) : ℚ × ℚ × ℚ :=
  (0.5 + fi * 0.5, 0.2 + fi * 0.3, 0.2 + fi * 0.3)

/-- Linear interpolation between two colors. -/
def lerp3 (t : ℚ) (a b : ℚ × ℚ × ℚ) : ℚ × ℚ × ℚ :=
  (a.1 + t * (b.1 - a.1), a.2.1 + t * (b.2.1 - a.2.1), a.2.2 + t * (b.2.2 - a.2.2))

/-- The clear color actually used for the frame: the steady background unless
the boom is active, in which case the flash override (lines 237, 243-253). -/
def effectiveClearColor (sinO : ℚ → ℚ) (s : GameState) : ℚ × ℚ × ℚ :=
  if s.boomStarted = true then flashColor (flashIntensity sinO s.boomTimer)
  else (s.bgRed, s.bgGreen, s.bgBlue)

/-! ## One iteration of the driver loop (lines 221-334), state-update part -/

/-- The guarded boom-animation call of the driver loop (lines 231-234). -/
def boomStep (dt : ℚ) (s : GameState) : GameState :=
  if s.boomStarted = true then updateBoomAnimation dt s else s

def frame (inp : Input) (dt : ℚ) (st : InputState × GameState) : InputState × GameState :=
  ((processInput inp st.1 st.2).1,
   drawAll (boomStep dt (updateBackgroundColor
     (updateGameLogic dt (processInput inp st.1 st.2).2))))

/-- Run the driver loop from process start over a list of (input, dt) ticks. -/
def runFrames (evs : List (Input × ℚ)) : InputState × GameState :=
  evs.foldl (fun st e => frame e.1 e.2 st) (initialInputState, initialState)

/-! ## Bresenham (`Lab_report_06/src/main.cpp`, lines 23-63) -/

/-- C++ `round`: round half away from zero. -/
def roundHalfAway (q : ℚ) : ℤ := if 0 ≤ q then ⌊q + 1 / 2⌋ else -⌊-q + 1 / 2⌋

/-- Step direction: `if (A < B) s = 1; else s = -1;` (lines 35-46). -/
def stepDir (a b : ℤ) : ℤ := if a < b then 1 else -1

/-- The `while (true)` loop of `Bresenham` (lines 52-61), with an explicit
fuel bound; `none` models running out of fuel before the loop breaks. -/
def bresLoop (X1 Y1 dx dy sx sy : ℤ) : ℕ → ℤ → ℤ → ℤ → Option (List (ℤ × ℤ))
  | 0, _, _, _ => none
  | fuel + 1, x, y, err =>
    if x = X1 ∧ y = Y1 then some [(x, y)]
    else
      (bresLoop X1 Y1 dx dy sx sy fuel
        (if -dy < 2 * err then x + sx else x)
        (if 2 * err < dx then y + sy else y)
        ((if -dy < 2 * err then err - dy else err) +
          (if 2 * err < dx then dx else 0))).map
        (fun rest => (x, y) :: rest)

/-- `Bresenham` after scaling/rounding: integer endpoints (lines 27-50). -/
def bresenhamInt (X0 Y0 X1 Y1 : ℤ) : Option (List (ℤ × ℤ)) :=
  bresLoop X1 Y1 |X1 - X0| |Y1 - Y0| (stepDir X0 X1) (stepDir Y0 Y1)
    ((X1 - X0).natAbs + (Y1 - Y0).natAbs + 1) X0 Y0 (|X1 - X0| - |Y1 - Y0|)

/-- The full `Bresenham` function (lines 23-63): scale the real endpoints by
1000, round, run the integer loop, and convert the emitted points back to
normalized coordinates (each point is pushed as x/scale, y/scale, 0). -/
def Bresenham (x0 y0 x1 y1 : ℚ) : Option (List (ℚ × ℚ × ℚ)) :=
  (bresenhamInt (roundHalfAway (x0 * 1000)) (roundHalfAway (y0 * 1000))
      (roundHalfAway (x1 * 1000)) (roundHalfAway (y1 * 1000))).map
    (List.map fun p => ((p.1 : ℚ) / 1000, (p.2 : ℚ) / 1000, 0))

/-! ## Field-preservation helper lemmas -/

@[simp] theorem updateBackgroundColor_pillarOpacity (s : GameState) :
    (updateBackgroundColor s).pillarOpacity = s.pillarOpacity := by
  simp only [updateBackgroundColor]; split_ifs <;> rfl

@[simp] theorem updateBackgroundColor_gameLost (s : GameState) :
    (updateBackgroundColor s).gameLost = s.gameLost := by
  simp only [updateBackgroundColor]; split_ifs <;> rfl

@[simp] theorem updateBackgroundColor_gameActive (s : GameState) :
    (updateBackgroundColor s).gameActive = s.gameActive := by
  simp only [updateBackgroundColor]; split_ifs <;> rfl

@[simp] theorem updateBackgroundColor_gameWon (s : GameState) :
    (updateBackgroundColor s).gameWon = s.gameWon := by
  simp only [updateBackgroundColor]; split_ifs <;> rfl

@[simp] theorem updateBackgroundColor_boomStarted (s : GameState) :
    (updateBackgroundColor s).boomStarted = s.boomStarted := by
  simp only [updateBackgroundColor]; split_ifs <;> rfl

@[simp] theorem updateBackgroundColor_boomTimer (s : GameState) :
    (updateBackgroundColor s).boomTimer = s.boomTimer := by
  simp only [updateBackgroundColor]; split_ifs <;> rfl

@[simp] theorem updateBoomAnimation_pillarOpacity (dt : ℚ) (s : GameState) :
    (updateBoomAnimation dt s).pillarOpacity = s.pillarOpacity := by
  simp only [updateBoomAnimation]; split_ifs <;> rfl

@[simp] theorem updateBoomAnimation_gameLost (dt : ℚ) (s : GameState) :
    (updateBoomAnimation dt s).gameLost = s.gameLost := by
  simp only [updateBoomAnimation]; split_ifs <;> rfl

@[simp] theorem updateBoomAnimation_gameActive (dt : ℚ) (s : GameState) :
    (updateBoomAnimation dt s).gameActive = s.gameActive := by
  simp only [updateBoomAnimation]; split_ifs <;> rfl

@[simp] theorem updateBoomAnimation_gameWon (dt : ℚ) (s : GameState) :
    (updateBoomAnimation dt s).gameWon = s.gameWon := by
  simp only [updateBoomAnimation]; split_ifs <;> rfl

@[simp] theorem boomStep_pillarOpacity (dt : ℚ) (s : GameState) :
    (boomStep dt s).pillarOpacity = s.pillarOpacity := by
  simp only [boomStep]; split_ifs <;> simp

@[simp] theorem boomStep_gameLost (dt : ℚ) (s : GameState) :
    (boomStep dt s).gameLost = s.gameLost := by
  simp only [boomStep]; split_ifs <;> simp

@[simp] theorem drawAll_pillarOpacity (s : GameState) :
    (drawAll s).pillarOpacity = s.pillarOpacity := rfl

@[simp] theorem drawAll_gameLost (s : GameState) :
    (drawAll s).gameLost = s.gameLost := rfl

theorem updateGameLogic_inactive (dt : ℚ) (s : GameState)
    (h : s.gameActive = false) : updateGameLogic dt s = s := by
  simp [updateGameLogic, h]

theorem updateGameLogic_pillarOpacity (dt : ℚ) (s : GameState) :
    (updateGameLogic dt s).pillarOpacity = s.pillarOpacity ∨
    (updateGameLogic dt s).pillarOpacity = decayOpacity dt s.pillarOpacity := by
  simp only [updateGameLogic]; split_ifs <;> simp

theorem processSpace_snd (b : Bool) (ist : InputState) (s : GameState) :
    (processSpace b ist s).2 = s ∨
    (processSpace b ist s).2 = { s with pillarOpacity := boostOpacity s.pillarOpacity } := by
  simp only [processSpace]; split_ifs <;> simp

theorem processR_snd (b : Bool) (ist : InputState) (s : GameState) :
    (processR b ist s).2 = s ∨ (processR b ist s).2 = initialState := by
  simp only [processR]; split_ifs <;> simp [resetGame, initialState]

theorem processR_snd_of_not_r (ist : InputState) (s : GameState) :
    (processR false ist s).2 = s := by
  simp [processR]

theorem processInput_pillarOpacity (inp : Input) (ist : InputState) (s : GameState) :
    (processInput inp ist s).2.pillarOpacity = s.pillarOpacity ∨
    (processInput inp ist s).2.pillarOpacity = boostOpacity s.pillarOpacity ∨
    (processInput inp ist s).2.pillarOpacity = fun _ => 1 := by
  unfold processInput
  rcases processR_snd inp.rDown (processSpace inp.spaceDown ist s).1
      (processSpace inp.spaceDown ist s).2 with h | h <;> rw [h]
  · rcases processSpace_snd inp.spaceDown ist s with h2 | h2 <;> rw [h2] <;> simp
  · right; right; rfl

theorem processInput_gameFlags (inp : Input) (ist : InputState) (s : GameState)
    (hR : inp.rDown = false) :
    (processInput inp ist s).2.gameLost = s.gameLost ∧
    (processInput inp ist s).2.gameActive = s.gameActive := by
  unfold processInput
  rw [hR, processR_snd_of_not_r]
  rcases processSpace_snd inp.spaceDown ist s with h2 | h2 <;> rw [h2] <;> simp

/-! ## Claim theorems -/

/-- C1: on a tick taken while the game is in progress and the boom is
inactive, the update first applies opacity decay, and if any decayed pillar
opacity is strictly below the survival threshold the outcome becomes Lost,
the boom starts with its clock reset to 0, no elapsed time is accumulated,
and the win flag is left untouched (lose is evaluated first). -/
theorem lose_priority_tick (s : GameState) (dt : ℚ)
    (hA : s.gameActive = true) (hB : s.boomStarted = false)
    (hF : decayOpacity dt s.pillarOpacity 0 < OPACITY_THRESHOLD ∨
          decayOpacity dt s.pillarOpacity 1 < OPACITY_THRESHOLD ∨
          decayOpacity dt s.pillarOpacity 2 < OPACITY_THRESHOLD ∨
          decayOpacity dt s.pillarOpacity 3 < OPACITY_THRESHOLD) :
    (updateGameLogic dt s).pillarOpacity = decayOpacity dt s.pillarOpacity ∧
    (updateGameLogic dt s).gameLost = true ∧
    (updateGameLogic dt s).gameActive = false ∧
    (updateGameLogic dt s).boomStarted = true ∧
    (updateGameLogic dt s).boomTimer = 0 ∧
    (updateGameLogic dt s).gameTimer = s.gameTimer ∧
    (updateGameLogic dt s).gameWon = s.gameWon := by
  unfold updateGameLogic
  rw [if_neg (by simp [hA, hB]), if_pos hF]
  simp

/-- Witness for C1: from full opacity 0.6 a one-second tick decays every pillar
to 0.4 < 0.55, so the game is lost with the boom started and no time accrued. -/
theorem lose_priority_tick_witness :
    (updateGameLogic 1 { initialState with pillarOpacity := fun _ => 0.6 }).gameLost = true ∧
    (updateGameLogic 1 { initialState with pillarOpacity := fun _ => 0.6 }).boomStarted = true ∧
    (updateGameLogic 1 { initialState with pillarOpacity := fun _ => 0.6 }).boomTimer = 0 ∧
    (updateGameLogic 1 { initialState with pillarOpacity := fun _ => 0.6 }).gameTimer = 0 ∧
    (updateGameLogic 1 { initialState with pillarOpacity := fun _ => 0.6 }).gameWon = false := by
  have h := lose_priority_tick { initialState with pillarOpacity := fun _ => 0.6 } 1
    rfl rfl (Or.inl (by norm_num [decayOpacity, OPACITY_FADE_RATE, OPACITY_THRESHOLD]))
  exact ⟨h.2.1, h.2.2.2.1, h.2.2.2.2.1, h.2.2.2.2.2.1, h.2.2.2.2.2.2⟩

/-- C5: if, on an in-progress tick with the boom inactive, every decayed pillar
opacity is still at least the threshold and the accumulated time reaches
exactly the round duration of 10 s, the state transitions to Won on that tick
(the comparison is inclusive). -/
theorem win_exact_duration (s : GameState) (dt : ℚ)
    (hA : s.gameActive = true) (hB : s.boomStarted = false)
    (hO : ∀ i, OPACITY_THRESHOLD ≤ decayOpacity dt s.pillarOpacity i)
    (hT : s.gameTimer + dt = GAME_DURATION) :
    (updateGameLogic dt s).gameWon = true ∧
    (updateGameLogic dt s).gameActive = false ∧
    (updateGameLogic dt s).gameLost = s.gameLost ∧
    (updateGameLogic dt s).gameTimer = GAME_DURATION := by
  unfold updateGameLogic
  rw [if_neg (by simp [hA, hB]),
      if_neg (by push_neg; exact ⟨hO 0, hO 1, hO 2, hO 3⟩),
      if_pos (le_of_eq hT.symm)]
  simp [hT]

/-- Witness for C5: with 9.5 s accumulated and full opacity, a 0.5 s tick
decays the pillars to 0.9 ≥ 0.55 and reaches exactly 10 s, so the game is won. -/
theorem win_exact_duration_witness :
    (updateGameLogic 0.5 { initialState with gameTimer := 9.5 }).gameWon = true ∧
    (updateGameLogic 0.5 { initialState with gameTimer := 9.5 }).gameActive = false ∧
    (updateGameLogic 0.5 { initialState with gameTimer := 9.5 }).gameTimer = GAME_DURATION := by
  have h := win_exact_duration { initialState with gameTimer := 9.5 } 0.5 rfl rfl
    (by intro i; norm_num [decayOpacity, OPACITY_FADE_RATE, OPACITY_THRESHOLD, initialState])
    (by norm_num [initialState, GAME_DURATION])
  exact ⟨h.1, h.2.1, h.2.2.2⟩

/-- C6: `resetGame` maps every state — whatever ticks, boosts and collapse
activity produced it — to exactly the post-construction state: opacities 1,
timer 0, in progress, boom inactive with clock 0, all removed flags false,
default status message, white background. -/
theorem reset_restores_initial (s : GameState) : resetGame s = initialState := rfl

/-- C7: `updateBoomAnimation dt` adds dt to the collapse clock; when the clock
reaches the 2.5 s total duration it deactivates the boom and zeroes the clock,
while the Lost outcome is preserved; and a full frame without a reset trigger
never leaves the Lost outcome. -/
theorem boom_advance_deactivate (s : GameState) (dt : ℚ) (ist : InputState)
    (inp : Input) (hL : s.gameLost = true) (hA : s.gameActive = false)
    (hR : inp.rDown = false) :
    (s.boomTimer + dt < BOOM_DURATION →
      updateBoomAnimation dt s = { s with boomTimer := s.boomTimer + dt }) ∧
    (BOOM_DURATION ≤ s.boomTimer + dt →
      updateBoomAnimation dt s = { s with boomStarted := false, boomTimer := 0 }) ∧
    (updateBoomAnimation dt s).gameLost = true ∧
    (frame inp dt (ist, s)).2.gameLost = true := by
  refine ⟨fun h => ?_, fun h => ?_, ?_, ?_⟩
  · rw [updateBoomAnimation, if_neg (not_le.2 h)]
  · rw [updateBoomAnimation, if_pos h]
  · simp [hL]
  · have hflags := processInput_gameFlags inp ist s hR
    simp only [frame, drawAll_gameLost, boomStep_gameLost, updateBackgroundColor_gameLost]
    rw [updateGameLogic_inactive dt _ (hflags.2.trans hA), hflags.1, hL]

/-- A lost state with the collapse two seconds in, used by concrete instances. -/
def lostBoomState : GameState :=
  { initialState with gameActive := false, gameLost := true,
                      boomStarted := true, boomTimer := 2 }

/-- Witness for C7: a lost, inactive state with the boom clock at 2 s: a 0.4 s
tick advances the clock to 2.4 s, while a 0.6 s tick reaches 2.6 s ≥ 2.5 s and
deactivates the boom; the Lost outcome survives a full frame. -/
theorem boom_advance_deactivate_witness :
    (updateBoomAnimation 0.4 lostBoomState
      = { lostBoomState with boomTimer := 2.4 }) ∧
    (updateBoomAnimation 0.6 lostBoomState
      = { lostBoomState with boomStarted := false, boomTimer := 0 }) ∧
    (frame ⟨false, false⟩ 1 (initialInputState, lostBoomState)).2.gameLost = true := by
  have h1 := boom_advance_deactivate lostBoomState 0.4 initialInputState
    ⟨false, false⟩ rfl rfl rfl
  have h2 := boom_advance_deactivate lostBoomState 0.6 initialInputState
    ⟨false, false⟩ rfl rfl rfl
  have h3 := boom_advance_deactivate lostBoomState 1 initialInputState
    ⟨false, false⟩ rfl rfl rfl
  refine ⟨?_, ?_, h3.2.2.2⟩
  · rw [h1.1 (by norm_num [lostBoomState, BOOM_DURATION])]
    norm_num [lostBoomState]
  · rw [h2.2.1 (by norm_num [lostBoomState, BOOM_DURATION])]

/-! ## C2: the opacity invariant -/

/-- All four pillar opacities lie in [0, 1]. -/
def opacityInv (s : GameState) : Prop :=
  ∀ i, 0 ≤ s.pillarOpacity i ∧ s.pillarOpacity i ≤ 1

instance (s : GameState) : Decidable (opacityInv s) := by
  unfold opacityInv; infer_instance

theorem decayOpacity_inv (dt : ℚ) (hdt : 0 ≤ dt) (o : Fin 4 → ℚ)
    (ho : ∀ i, 0 ≤ o i ∧ o i ≤ 1) :
    ∀ i, 0 ≤ decayOpacity dt o i ∧ decayOpacity dt o i ≤ 1 := by
  intro i
  have hr : 0 ≤ OPACITY_FADE_RATE * dt :=
    mul_nonneg (by norm_num [OPACITY_FADE_RATE]) hdt
  refine ⟨le_max_right _ _, max_le (by linarith [(ho i).2]) (by norm_num)⟩

theorem boostOpacity_inv (o : Fin 4 → ℚ) (ho : ∀ i, 0 ≤ o i ∧ o i ≤ 1) :
    ∀ i, 0 ≤ boostOpacity o i ∧ boostOpacity o i ≤ 1 := by
  intro i
  have hg : (0 : ℚ) ≤ OPACITY_GAIN_RATE := by norm_num [OPACITY_GAIN_RATE]
  refine ⟨le_min (by linarith [(ho i).1]) (by norm_num), min_le_right _ _⟩

theorem frame_opacityInv (inp : Input) (dt : ℚ) (hdt : 0 ≤ dt)
    (st : InputState × GameState) (h : opacityInv st.2) :
    opacityInv (frame inp dt st).2 := by
  have h1 : opacityInv (processInput inp st.1 st.2).2 := by
    rcases processInput_pillarOpacity inp st.1 st.2 with hp | hp | hp <;>
      intro i <;> rw [hp]
    · exact h i
    · exact boostOpacity_inv _ h i
    · exact ⟨by norm_num, by norm_num⟩
  have h2 : opacityInv (updateGameLogic dt (processInput inp st.1 st.2).2) := by
    rcases updateGameLogic_pillarOpacity dt (processInput inp st.1 st.2).2 with hp | hp <;>
      intro i <;> rw [hp]
    · exact h1 i
    · exact decayOpacity_inv dt hdt _ h1 i
  intro i
  simpa [frame, opacityInv] using h2 i

/-- C2: along every run of the driver loop from process start with
non-negative frame times, under any pattern of boost and reset triggers, each
of the 4 pillar opacities stays within [0, 1]: decay is clamped below at 0 and
boost is clamped above at 1. -/
theorem opacity_bounds_trace (evs : List (Input × ℚ))
    (h : ∀ e ∈ evs, 0 ≤ e.2) : opacityInv (runFrames evs).2 := by
  suffices key : ∀ (evs : List (Input × ℚ)) (st : InputState × GameState),
      (∀ e ∈ evs, 0 ≤ e.2) → opacityInv st.2 →
      opacityInv ((evs.foldl (fun st e => frame e.1 e.2 st) st)).2 by
    refine key evs _ h ?_
    intro i; exact ⟨by norm_num [initialState], by norm_num [initialState]⟩
  intro evs
  induction evs with
  | nil => intro st _ hst; exact hst
  | cons e tl ih =>
    intro st hall hst
    simp only [List.foldl_cons]
    exact ih _ (fun x hx => hall x (List.mem_cons_of_mem e hx))
      (frame_opacityInv e.1 e.2 (hall e (List.mem_cons_self e tl)) st hst)

/-- Witness for C2: a three-tick run (decay, a held boost, a reset) keeps all
opacities within bounds. -/
theorem opacity_bounds_trace_witness :
    opacityInv (runFrames
      [(⟨false, false⟩, 1), (⟨true, false⟩, 2), (⟨true, true⟩, 0.5)]).2 := by
  refine opacity_bounds_trace _ ?_
  intro e he
  simp only [List.mem_cons, List.not_mem_nil, or_false] at he
  rcases he with rfl | rfl | rfl <;> norm_num

/-! ## C4: boost is edge-triggered -/

/-- Once the SPACE debounce flag is set and the key is still held, a
`processInput` tick changes nothing except clearing the R debounce flag. -/
theorem processInput_held_space (ist : InputState) (s : GameState)
    (hsp : ist.spacePressed = true) :
    processInput ⟨true, false⟩ ist s = (⟨true, false⟩, s) := by
  unfold processInput processSpace processR
  simp [hsp]

/-- C4: holding SPACE across consecutive ticks boosts the opacities exactly
once, on the rising edge: after n ≥ 1 held ticks from a rising edge in an
active, non-collapsing state, the opacities equal a single application of the
boost; and on a rising edge with the round over or the collapse active, the
game state is left completely unchanged. -/
theorem boost_edge_triggered (ist : InputState) (s : GameState)
    (hsp : ist.spacePressed = false) :
    (s.gameActive = true → s.boomStarted = false → ∀ n : ℕ, 1 ≤ n →
      (((fun p : InputState × GameState => processInput ⟨true, false⟩ p.1 p.2)^[n])
          (ist, s)).2.pillarOpacity = boostOpacity s.pillarOpacity) ∧
    ((s.gameActive = false ∨ s.boomStarted = true) →
      (processInput ⟨true, false⟩ ist s).2 = s) := by
  constructor
  · intro hA hB n hn
    have hfirst : processInput ⟨true, false⟩ ist s
        = (⟨true, false⟩, { s with pillarOpacity := boostOpacity s.pillarOpacity }) := by
      unfold processInput processSpace processR
      simp [hsp, hA, hB]
    have hrest : ∀ m : ℕ,
        (((fun p : InputState × GameState => processInput ⟨true, false⟩ p.1 p.2)^[m])
            (⟨true, false⟩, { s with pillarOpacity := boostOpacity s.pillarOpacity }))
          = (⟨true, false⟩, { s with pillarOpacity := boostOpacity s.pillarOpacity }) := by
      intro m
      induction m with
      | zero => rfl
      | succ m ihm =>
        rw [Function.iterate_succ_apply, processInput_held_space _ _ rfl, ihm]
    obtain ⟨m, rfl⟩ : ∃ m, n = m + 1 := ⟨n - 1, by omega⟩
    rw [Function.iterate_succ_apply, hfirst, hrest]
  · intro hAB
    unfold processInput processSpace processR
    have : ¬(ist.spacePressed = false ∧ s.gameActive = true ∧ s.boomStarted = false) := by
      rcases hAB with h | h <;> simp [h]
    simp [this]

/-- Witness for C4: three held ticks from the initial state boost the
opacities exactly once (they stay at the single-boost value), and a rising
edge in a lost state leaves the state unchanged. -/
theorem boost_edge_triggered_witness :
    ((((fun p : InputState × GameState => processInput ⟨true, false⟩ p.1 p.2)^[3])
        (initialInputState, initialState)).2.pillarOpacity
      = boostOpacity initialState.pillarOpacity) ∧
    (processInput ⟨true, false⟩ initialInputState lostBoomState).2 = lostBoomState := by
  constructor
  · exact (boost_edge_triggered initialInputState initialState rfl).1 rfl rfl 3 (by norm_num)
  · exact (boost_edge_triggered initialInputState lostBoomState rfl).2 (Or.inl rfl)

/-! ## C8: the background color mapper -/

/-- C8: the clear color is determined by the outcome and the average pillar
opacity: while in progress it is (1, ratio, ratio) with
ratio = clamp((avg − threshold)/(1 − threshold), 0, 1) — exactly (1, 0, 0)
when the average equals the threshold; when Lost it is (1, 0.2, 0.2); when
Won it is (0.2, 1, 0.2). -/
theorem background_color_cases (s : GameState)
    (hle : ∀ i, s.pillarOpacity i ≤ 1) :
    (s.gameActive = true → s.gameLost = false →
      ((updateBackgroundColor s).bgRed, (updateBackgroundColor s).bgGreen,
       (updateBackgroundColor s).bgBlue)
      = (1,
         min (max (((s.pillarOpacity 0 + s.pillarOpacity 1 + s.pillarOpacity 2 +
            s.pillarOpacity 3) / 4 - OPACITY_THRESHOLD) / (1 - OPACITY_THRESHOLD)) 0) 1,
         min (max (((s.pillarOpacity 0 + s.pillarOpacity 1 + s.pillarOpacity 2 +
            s.pillarOpacity 3) / 4 - OPACITY_THRESHOLD) / (1 - OPACITY_THRESHOLD)) 0) 1)) ∧
    (s.gameActive = true → s.gameLost = false →
      (s.pillarOpacity 0 + s.pillarOpacity 1 + s.pillarOpacity 2 +
        s.pillarOpacity 3) / 4 = OPACITY_THRESHOLD →
      ((updateBackgroundColor s).bgRed, (updateBackgroundColor s).bgGreen,
       (updateBackgroundColor s).bgBlue) = (1, 0, 0)) ∧
    (s.gameLost = true →
      ((updateBackgroundColor s).bgRed, (updateBackgroundColor s).bgGreen,
       (updateBackgroundColor s).bgBlue) = (1, 0.2, 0.2)) ∧
    (s.gameLost = false → s.gameActive = false → s.gameWon = true →
      ((updateBackgroundColor s).bgRed, (updateBackgroundColor s).bgGreen,
       (updateBackgroundColor s).bgBlue) = (0.2, 1, 0.2)) := by
  have havg : (s.pillarOpacity 0 + s.pillarOpacity 1 + s.pillarOpacity 2 +
      s.pillarOpacity 3) / 4 ≤ 1 := by
    linarith [hle 0, hle 1, hle 2, hle 3]
  have hratio : ((s.pillarOpacity 0 + s.pillarOpacity 1 + s.pillarOpacity 2 +
      s.pillarOpacity 3) / 4 - OPACITY_THRESHOLD) / (1 - OPACITY_THRESHOLD) ≤ 1 := by
    rw [div_le_one (by norm_num [OPACITY_THRESHOLD])]
    have : OPACITY_THRESHOLD = 0.55 := rfl
    linarith
  have hminmax : min (max (((s.pillarOpacity 0 + s.pillarOpacity 1 +
      s.pillarOpacity 2 + s.pillarOpacity 3) / 4 - OPACITY_THRESHOLD) /
      (1 - OPACITY_THRESHOLD)) 0) 1
      = max (((s.pillarOpacity 0 + s.pillarOpacity 1 + s.pillarOpacity 2 +
        s.pillarOpacity 3) / 4 - OPACITY_THRESHOLD) / (1 - OPACITY_THRESHOLD)) 0 :=
    min_eq_left (max_le hratio (by norm_num))
  refine ⟨fun hA hL => ?_, fun hA hL h0 => ?_, fun hL => ?_, fun hL hA hW => ?_⟩
  · simp only [updateBackgroundColor]
    rw [if_pos ⟨hL, hA⟩, hminmax]
  · simp only [updateBackgroundColor]
    rw [if_pos ⟨hL, hA⟩]
    simp only [h0]
    norm_num
  · simp only [updateBackgroundColor]
    rw [if_neg (by simp [hL]), if_pos hL]
  · simp only [updateBackgroundColor]
    rw [if_neg (by simp [hA]), if_neg (by simp [hL]), if_pos hW]

/-- Witness for C8: in the fresh state the color is white (ratio = 1), and in
the lost state it is the fixed (1, 0.2, 0.2). -/
theorem background_color_cases_witness :
    (((updateBackgroundColor initialState).bgRed,
      (updateBackgroundColor initialState).bgGreen,
      (updateBackgroundColor initialState).bgBlue) = (1, 1, 1)) ∧
    (((updateBackgroundColor lostBoomState).bgRed,
      (updateBackgroundColor lostBoomState).bgGreen,
      (updateBackgroundColor lostBoomState).bgBlue) = (1, 0.2, 0.2)) := by
  constructor
  · have h := (background_color_cases initialState
      (by intro i; norm_num [initialState])).1 rfl rfl
    rw [h]
    norm_num [initialState, OPACITY_THRESHOLD]
  · exact (background_color_cases lostBoomState
      (by intro i; norm_num [lostBoomState, initialState])).2.2.1 rfl

/-! ## C9: the collapse background flash -/

/-- C9 counterexample: the flash is NOT a blend between the lost color
(1, 0.2, 0.2) and a brighter variant — at flash intensity 0 the override color
is (0.5, 0.2, 0.2), so no choice of bright endpoint makes the blend start at
the lost color. -/
theorem flash_not_lost_blend_cex :
    ¬ ∃ bright : ℚ × ℚ × ℚ, ∀ fi : ℚ, 0 ≤ fi → fi ≤ 1 →
      flashColor fi = lerp3 fi lostColor bright := by
  rintro ⟨b, h⟩
  have h0 := h 0 le_rfl (by norm_num)
  simp only [flashColor, lerp3, lostColor, Prod.ext_iff] at h0
  norm_num at h0

/-- C9 (amended): while the collapse animation is active — and only then — the
steady background is overridden by a flash whose intensity is a sinusoid of
the collapse clock at frequency 6.28·5, and the flash color is the blend, at
that intensity, between the dimmed red (0.5, 0.2, 0.2) and the brighter
(1, 0.5, 0.5); the lost base color itself is not an endpoint of the blend. -/
theorem flash_blend_amended (sinO : ℚ → ℚ) (s : GameState) (fi : ℚ) :
    flashColor fi = lerp3 fi (0.5, 0.2, 0.2) (1, 0.5, 0.5) ∧
    (s.boomStarted = true →
      effectiveClearColor sinO s = flashColor (flashIntensity sinO s.boomTimer)) ∧
    (s.boomStarted = false →
      effectiveClearColor sinO s = (s.bgRed, s.bgGreen, s.bgBlue)) := by
  refine ⟨?_, fun h => ?_, fun h => ?_⟩
  · simp only [flashColor, lerp3, Prod.ext_iff]
    refine ⟨by norm_num, by norm_num, by norm_num⟩
  · simp [effectiveClearColor, h]
  · simp [effectiveClearColor, h]

/-- Witness for C9 (amended): at full intensity the blend endpoint is
(1, 0.5, 0.5), and in the active-boom state the override is the flash color. -/
theorem flash_blend_amended_witness :
    flashColor 1 = lerp3 1 (0.5, 0.2, 0.2) (1, 0.5, 0.5) ∧
    effectiveClearColor (fun _ => 0) lostBoomState
      = flashColor (flashIntensity (fun _ => 0) lostBoomState.boomTimer) := by
  refine ⟨(flash_blend_amended (fun _ => 0) lostBoomState 1).1, ?_⟩
  exact (flash_blend_amended (fun _ => 0) lostBoomState 1).2.1 rfl

/-! ## C3: per-piece collapse rendering -/

/-- C3: during an active collapse, a piece with
0 < collapseClock − disappearOffset < 0.5 (the per-piece disappear window) is
drawn with normalized progress (clock − offset)/0.5, transform = translate,
shake, rotation 2π·progress, uniform scale 1 − 0.8·progress, then the
(width, height) scale; at clock = offset + 0.5·window the progress is 0.5 and
the uniform scale factor is 0.6; once the window has elapsed the piece is
marked removed and is hidden, also on every later draw of the cycle. -/
theorem collapse_piece_render (sinO cosO : ℚ → ℚ) (s : GameState)
    (c : BuildingComponent) (removed : Bool) :
    (s.boomStarted = true → 0 < s.boomTimer - c.disappearTime →
      s.boomTimer - c.disappearTime < 0.5 →
      drawPiece sinO cosO s c removed =
        (.collapsing (c.x, c.y)
          (sinO (s.boomTimer * 20) * ((1 - (s.boomTimer - c.disappearTime) / 0.5) * 0.1),
           cosO (s.boomTimer * 25) * ((1 - (s.boomTimer - c.disappearTime) / 0.5) * 0.1))
          ((s.boomTimer - c.disappearTime) / 0.5 * 3.14159 * 2)
          (1 - (s.boomTimer - c.disappearTime) / 0.5 * 0.8)
          (c.width, c.height), removed)) ∧
    (s.boomStarted = true → s.boomTimer = c.disappearTime + 0.5 * 0.5 →
      ∃ sh : ℚ × ℚ, drawPiece sinO cosO s c removed =
        (.collapsing (c.x, c.y) sh (0.5 * 3.14159 * 2) 0.6
          (c.width, c.height), removed)) ∧
    (s.boomStarted = true → 0.5 ≤ s.boomTimer - c.disappearTime →
      drawPiece sinO cosO s c removed = (.hidden, true)) ∧
    (s.boomStarted = false → removed = true →
      drawPiece sinO cosO s c removed = (.hidden, true)) := by
  refine ⟨fun hB h0 h1 => ?_, fun hB hmid => ?_, fun hB h2 => ?_, fun hB hrm => ?_⟩
  · have hlt : (s.boomTimer - c.disappearTime) / 0.5 < 1 := by
      rw [div_lt_one (by norm_num)]; linarith
    have hmin : min ((s.boomTimer - c.disappearTime) / 0.5) 1
        = (s.boomTimer - c.disappearTime) / 0.5 := min_eq_left hlt.le
    unfold drawPiece
    rw [if_pos ⟨h0, hB⟩, if_neg (by rw [hmin]; exact not_le.2 hlt), hmin]
  · have h0 : 0 < s.boomTimer - c.disappearTime := by rw [hmid]; norm_num
    have h1 : s.boomTimer - c.disappearTime < 0.5 := by rw [hmid]; norm_num
    have hlt : (s.boomTimer - c.disappearTime) / 0.5 < 1 := by
      rw [div_lt_one (by norm_num)]; linarith
    have hmin : min ((s.boomTimer - c.disappearTime) / 0.5) 1
        = (s.boomTimer - c.disappearTime) / 0.5 := min_eq_left hlt.le
    have hval : (s.boomTimer - c.disappearTime) / 0.5 = 0.5 := by
      rw [hmid]; norm_num
    refine ⟨(sinO (s.boomTimer * 20) * ((1 - 0.5) * 0.1),
             cosO (s.boomTimer * 25) * ((1 - 0.5) * 0.1)), ?_⟩
    unfold drawPiece
    rw [if_pos ⟨h0, hB⟩, if_neg (by rw [hmin]; exact not_le.2 hlt), hmin, hval]
    norm_num
  · have hge : (1 : ℚ) ≤ min ((s.boomTimer - c.disappearTime) / 0.5) 1 := by
      refine le_min ?_ le_rfl
      rw [le_div_iff₀ (by norm_num)]
      linarith
    by_cases h0 : 0 < s.boomTimer - c.disappearTime
    · unfold drawPiece
      rw [if_pos ⟨h0, hB⟩, if_pos hge]
    · exfalso; apply h0; linarith
  · unfold drawPiece
    rw [if_neg (by simp [hB]), if_neg (by simp [hrm])]
    rw [hrm]

/-- The front-left pillar is registry entry 5 of the literal layout. -/
theorem components_5 :
    components 5 = ⟨-1.2, -1.3, 0.4, 1.2, (0.5, 0.25, 0.1), 0.86⟩ := rfl

/-- Witness for C3: the front-left pillar (offset 0.86 s) at collapse clock
0.86 + 0.25 s renders with progress 0.5 and uniform scale 0.6, and at clock
0.86 + 0.5 s it is hidden and marked removed. -/
theorem collapse_piece_render_witness :
    (∃ sh : ℚ × ℚ,
      drawPiece (fun _ => 0) (fun _ => 0)
          { lostBoomState with boomTimer := 0.86 + 0.25 } (components 5) false =
        (.collapsing ((components 5).x, (components 5).y) sh (0.5 * 3.14159 * 2) 0.6
          ((components 5).width, (components 5).height), false)) ∧
    drawPiece (fun _ => 0) (fun _ => 0)
        { lostBoomState with boomTimer := 0.86 + 0.5 } (components 5) false =
      (.hidden, true) := by
  constructor
  · exact (collapse_piece_render (fun _ => 0) (fun _ => 0)
      { lostBoomState with boomTimer := 0.86 + 0.25 } (components 5) false).2.1
      rfl (by rw [components_5]; norm_num [lostBoomState])
  · exact (collapse_piece_render (fun _ => 0) (fun _ => 0)
      { lostBoomState with boomTimer := 0.86 + 0.5 } (components 5) false).2.2.1
      rfl (by rw [components_5]; norm_num [lostBoomState])

/-! ## C10: termination of the Bresenham loop -/

example : bresenhamInt 0 0 3 2 = some [(0, 0), (1, 1), (2, 1), (3, 2)] := by decide

theorem stepDir_cases (a b : ℤ) : stepDir a b = 1 ∨ stepDir a b = -1 := by
  unfold stepDir; split_ifs <;> simp

theorem stepDir_abs (a b : ℤ) : b - stepDir a b * |b - a| = a := by
  unfold stepDir
  split_ifs with h
  · rw [abs_of_pos (by omega)]; ring
  · rw [abs_of_nonpos (by omega)]; ring

theorem getLast?_cons_of_getLast? {α : Type} (a p : α) (l : List α)
    (h : l.getLast? = some p) : (a :: l).getLast? = some p := by
  cases l with
  | nil => simp at h
  | cons b t => rw [List.getLast?_cons_cons]; exact h

/-- Arithmetic facts for one loop step, with `i`/`j` the number of x/y steps
already taken: the step conditions never overshoot the endpoint, and at least
one of them fires while the endpoint is not reached. -/
theorem bres_step_facts (dx dy i j : ℤ) (hdx : 0 ≤ dx) (hdy : 0 ≤ dy)
    (hi : 0 ≤ i) (hi2 : i ≤ dx) (hj : 0 ≤ j) (hj2 : j ≤ dy)
    (hne : ¬(i = dx ∧ j = dy)) :
    ((-dy < 2 * (dx - dy - i * dy + j * dx)) → i < dx) ∧
    ((2 * (dx - dy - i * dy + j * dx) < dx) → j < dy) ∧
    ((-dy < 2 * (dx - dy - i * dy + j * dx)) ∨
      (2 * (dx - dy - i * dy + j * dx) < dx)) := by
  have key1 : i = dx → j < dy → 2 * (dx - dy - i * dy + j * dx) ≤ -dy := by
    intro hieq hjlt
    subst hieq
    have hmul : j * i ≤ (dy - 1) * i := mul_le_mul_of_nonneg_right (by omega) hi
    nlinarith [hmul]
  have key2 : j = dy → i < dx → dx ≤ 2 * (dx - dy - i * dy + j * dx) := by
    intro hjeq hilt
    subst hjeq
    have hmul : i * j ≤ (dx - 1) * j := mul_le_mul_of_nonneg_right (by omega) hj
    nlinarith [hmul]
  refine ⟨?_, ?_, ?_⟩
  · intro hX
    rcases hi2.lt_or_eq with h | h
    · exact h
    · exfalso
      have hjlt : j < dy := by
        rcases hj2.lt_or_eq with h2 | h2
        · exact h2
        · exact absurd ⟨h, h2⟩ hne
      linarith [key1 h hjlt]
  · intro hY
    rcases hj2.lt_or_eq with h | h
    · exact h
    · exfalso
      have hilt : i < dx := by
        rcases hi2.lt_or_eq with h2 | h2
        · exact h2
        · exact absurd ⟨h2, h⟩ hne
      linarith [key2 h hilt]
  · rcases hi2.lt_or_eq with hilt | hieq
    · rcases hj2.lt_or_eq with hjlt | hjeq
      · by_contra hc
        push_neg at hc
        linarith [hc.1, hc.2]
      · left
        have := key2 hjeq hilt
        linarith
    · right
      have hjlt : j < dy := by
        rcases hj2.lt_or_eq with h2 | h2
        · exact h2
        · exact absurd ⟨hieq, h2⟩ hne
      have := key1 hieq hjlt
      linarith

/-- If `i ≤ dx` x-steps and `j ≤ dy` y-steps have been taken and the fuel
exceeds the remaining distance, the loop succeeds and its point list runs
from the current point to the endpoint. -/
theorem bresLoop_reaches (X1 Y1 dx dy sx sy : ℤ) (hdx : 0 ≤ dx) (hdy : 0 ≤ dy)
    (hsx : sx = 1 ∨ sx = -1) (hsy : sy = 1 ∨ sy = -1) :
    ∀ (fuel : ℕ) (i j : ℤ), 0 ≤ i → i ≤ dx → 0 ≤ j → j ≤ dy →
      dx - i + (dy - j) < (fuel : ℤ) →
      ∃ pts : List (ℤ × ℤ),
        bresLoop X1 Y1 dx dy sx sy fuel (X1 - sx * (dx - i)) (Y1 - sy * (dy - j))
          (dx - dy - i * dy + j * dx) = some pts ∧
        pts.head? = some (X1 - sx * (dx - i), Y1 - sy * (dy - j)) ∧
        pts.getLast? = some (X1, Y1) := by
  intro fuel
  induction fuel with
  | zero =>
    intro i j hi hi2 hj hj2 hfuel
    exfalso
    push_cast at hfuel
    omega
  | succ fuel ih =>
    intro i j hi hi2 hj hj2 hfuel
    by_cases hdone : i = dx ∧ j = dy
    · obtain ⟨rfl, rfl⟩ := hdone
      refine ⟨[(X1, Y1)], ?_, ?_, rfl⟩
      · simp [bresLoop]
      · simp
    · have hfacts := bres_step_facts dx dy i j hdx hdy hi hi2 hj hj2 hdone
      have hcond : ¬(X1 - sx * (dx - i) = X1 ∧ Y1 - sy * (dy - j) = Y1) := by
        rintro ⟨h1, h2⟩
        apply hdone
        constructor
        · have hz : sx * (dx - i) = 0 := by linarith
          rcases hsx with rfl | rfl <;> omega
        · have hz : sy * (dy - j) = 0 := by linarith
          rcases hsy with rfl | rfl <;> omega
      rw [bresLoop, if_neg hcond]
      by_cases hX : -dy < 2 * (dx - dy - i * dy + j * dx) <;>
        by_cases hY : 2 * (dx - dy - i * dy + j * dx) < dx
      · have hiX : i < dx := hfacts.1 hX
        have hjY : j < dy := hfacts.2.1 hY
        obtain ⟨pts, h1, h2, h3⟩ := ih (i + 1) (j + 1) (by omega) (by omega)
          (by omega) (by omega) (by push_cast at hfuel ⊢; omega)
        rw [if_pos hX, if_pos hY, if_pos hX, if_pos hY]
        have ex : X1 - sx * (dx - i) + sx = X1 - sx * (dx - (i + 1)) := by ring
        have ey : Y1 - sy * (dy - j) + sy = Y1 - sy * (dy - (j + 1)) := by ring
        have ee : dx - dy - i * dy + j * dx - dy + dx
            = dx - dy - (i + 1) * dy + (j + 1) * dx := by ring
        rw [ex, ey, ee, h1]
        exact ⟨_, rfl, rfl, getLast?_cons_of_getLast? _ _ _ h3⟩
      · have hiX : i < dx := hfacts.1 hX
        obtain ⟨pts, h1, h2, h3⟩ := ih (i + 1) j (by omega) (by omega)
          hj hj2 (by push_cast at hfuel ⊢; omega)
        rw [if_pos hX, if_neg hY, if_pos hX, if_neg hY]
        have ex : X1 - sx * (dx - i) + sx = X1 - sx * (dx - (i + 1)) := by ring
        have ee : dx - dy - i * dy + j * dx - dy + 0
            = dx - dy - (i + 1) * dy + j * dx := by ring
        rw [ex, ee, h1]
        exact ⟨_, rfl, rfl, getLast?_cons_of_getLast? _ _ _ h3⟩
      · have hjY : j < dy := hfacts.2.1 hY
        obtain ⟨pts, h1, h2, h3⟩ := ih i (j + 1) hi hi2
          (by omega) (by omega) (by push_cast at hfuel ⊢; omega)
        rw [if_neg hX, if_pos hY, if_neg hX, if_pos hY]
        have ey : Y1 - sy * (dy - j) + sy = Y1 - sy * (dy - (j + 1)) := by ring
        have ee : dx - dy - i * dy + j * dx + dx
            = dx - dy - i * dy + (j + 1) * dx := by ring
        rw [ey, ee, h1]
        exact ⟨_, rfl, rfl, getLast?_cons_of_getLast? _ _ _ h3⟩
      · rcases hfacts.2.2 with h | h
        · exact absurd h hX
        · exact absurd h hY

theorem bresenhamInt_terminates (X0 Y0 X1 Y1 : ℤ) :
    ∃ pts : List (ℤ × ℤ), bresenhamInt X0 Y0 X1 Y1 = some pts ∧
      pts.head? = some (X0, Y0) ∧ pts.getLast? = some (X1, Y1) := by
  have hdx : 0 ≤ |X1 - X0| := abs_nonneg _
  have hdy : 0 ≤ |Y1 - Y0| := abs_nonneg _
  obtain ⟨pts, h1, h2, h3⟩ := bresLoop_reaches X1 Y1 |X1 - X0| |Y1 - Y0|
    (stepDir X0 X1) (stepDir Y0 Y1) hdx hdy (stepDir_cases X0 X1) (stepDir_cases Y0 Y1)
    ((X1 - X0).natAbs + (Y1 - Y0).natAbs + 1) 0 0 le_rfl hdx le_rfl hdy
    (by rw [Int.abs_eq_natAbs, Int.abs_eq_natAbs]; push_cast; omega)
  have ex : X1 - stepDir X0 X1 * (|X1 - X0| - 0) = X0 := by
    rw [sub_zero, stepDir_abs]
  have ey : Y1 - stepDir Y0 Y1 * (|Y1 - Y0| - 0) = Y0 := by
    rw [sub_zero, stepDir_abs]
  rw [ex, ey] at h1 h2
  refine ⟨pts, ?_, h2, h3⟩
  have ee : |X1 - X0| - |Y1 - Y0|
      = |X1 - X0| - |Y1 - Y0| - 0 * |Y1 - Y0| + 0 * |X1 - X0| := by ring
  rw [bresenhamInt, ee]
  exact h1

/-- C10: for every pair of rational endpoints the Bresenham routine
terminates: after scaling by 1000 and rounding, the unbounded loop reaches
the scaled endpoint in finitely many iterations, and the returned point list
starts at the scaled start point and ends at the scaled end point. -/
theorem bresenham_terminates (x0 y0 x1 y1 : ℚ) :
    ∃ pts : List (ℚ × ℚ × ℚ), Bresenham x0 y0 x1 y1 = some pts ∧
      pts.head? = some ((roundHalfAway (x0 * 1000) : ℚ) / 1000,
        (roundHalfAway (y0 * 1000) : ℚ) / 1000, 0) ∧
      pts.getLast? = some ((roundHalfAway (x1 * 1000) : ℚ) / 1000,
        (roundHalfAway (y1 * 1000) : ℚ) / 1000, 0) := by
  obtain ⟨pts, h1, h2, h3⟩ := bresenhamInt_terminates (roundHalfAway (x0 * 1000))
    (roundHalfAway (y0 * 1000)) (roundHalfAway (x1 * 1000)) (roundHalfAway (y1 * 1000))
  refine ⟨pts.map (fun p => ((p.1 : ℚ) / 1000, (p.2 : ℚ) / 1000, 0)), ?_, ?_, ?_⟩
  · rw [Bresenham, h1]; rfl
  · rw [List.head?_map, h2]; rfl
  · rw [List.getLast?_map, h3]; rfl
